import Mathlib

/-!
Verification development for the door access-control pipeline.

The development shallowly embeds the three core engines:
  * facial recognition (`recognize_face`, `register_face`, `extract_face_features`
    from `src/api/facial_recognition.py`),
  * threat detection (`check_failed_access_attempts`, `log_access_attempt`
    from `src/api/threat_detection.py`),
  * anomaly detection (`extract_features`, `predict_anomaly`
    from `src/doortest/models/anomaly_detection.py`).

Modelling conventions:
  * Real (float) arithmetic is embedded as exact rational arithmetic over `ℚ`.
  * Euclidean distances are represented by their squares (`sqDist`), because a
    square root of a rational is generally irrational.  All comparisons the
    source performs on distances (`distance < best_distance`,
    `best_distance < 0.7`) are order-isomorphic to comparisons of the squared
    quantities, since `fun x => x * x` is strictly monotone on nonnegative
    reals; thresholds are compared as `d² < t * t` together with `0 < t`.
    Where the source uses the (non-squared) root itself — the reported
    confidence `max(0, 1 - best_distance)` and the final L2 division — the
    embedding takes the root value as an explicit argument constrained by
    side conditions (`s * s = sumSq v`, `0 ≤ s`).
  * Python dictionaries keyed by person_id become association lists in
    insertion order (Python dicts iterate in insertion order).
  * Python truthiness of the `best_match` string (`if is_match and best_match:`)
    is embedded explicitly: `None` and the empty string are falsy.
  * Timestamps are rationals (minutes for the threat detector, hours since a
    Monday-midnight epoch for the anomaly detector).
-/

/-! ### Facial recognition: data and matching
Embeds `FacialRecognitionEngine` state (`known_faces`, `person_names`) and
`recognize_face` / `register_face` from `src/api/facial_recognition.py`. -/

/-- Sum of squares of a rational vector: the square of its L2 norm. -/
def sumSq (v : List ℚ) : ℚ := (v.map fun x => x * x).sum

/-- Squared Euclidean distance `np.linalg.norm(a - b) ** 2`. -/
def sqDist (a b : List ℚ) : ℚ := sumSq (List.zipWith (fun x y => x - y) a b)

/-- All `(person_id, encoding)` pairs of the registry, in the iteration order
of `for person_id, encodings in self.known_faces.items(): for known_encoding
in encodings`. -/
def allEncodings (reg : List (String × List (List ℚ))) : List (String × List ℚ) :=
  reg.flatMap fun pe => pe.2.map fun e => (pe.1, e)

/-- The scan loop of `recognize_face`: starting from the accumulator
(`best_match`, squared `best_distance`; `none` stands for the initial
`(None, inf)` pair, which any finite distance beats), keep the strictly
smaller distance, first occurrence winning ties. -/
def bestLoop (q : List ℚ) (acc : Option (String × ℚ)) :
    List (String × List ℚ) → Option (String × ℚ)
  | [] => acc
  | pe :: rest =>
    match acc with
    | none => bestLoop q (some (pe.1, sqDist q pe.2)) rest
    | some (b, bd) =>
      bestLoop q (if sqDist q pe.2 < bd then some (pe.1, sqDist q pe.2) else some (b, bd)) rest

/-- Winner of the flat nearest-neighbour scan over every enrolled encoding. -/
def bestOf (q : List ℚ) (pairs : List (String × List ℚ)) : Option (String × ℚ) :=
  bestLoop q none pairs

/-- Result dictionary of `recognize_face` (timestamp field omitted). -/
structure RecogResult where
  person_id : Option String
  name : String
  confidence : ℚ
  deriving DecidableEq

/-- `self.person_names.get(best_match, 'Unknown')`. -/
def lookupName (names : List (String × String)) (p : String) : String :=
  match names.lookup p with
  | some n => n
  | none => "Unknown"

/-- `recognize_face` (registry comparison part, lines 82–117): flat scan for
the global minimum distance; `is_match = best_distance < thr` (in squared
form `bd < thr * thr ∧ 0 < thr`, which agrees with `√bd < thr` since
`√bd ≥ 0`; `thr` is the literal `0.7` in the source, kept as a parameter);
the guard `if is_match and best_match:` also tests Python truthiness of the
`best_match` string, so the empty string falls to the "Unknown" branch;
`confidence = max(0, 1 - best_distance)` where `sdist d` supplies the square
root of the winning squared distance `d`.  When the registry holds no
encodings the accumulator stays `(None, inf)`, so `is_match` is false and
`confidence = max(0, 1 - inf) = 0`. -/
def recognize_face (reg : List (String × List (List ℚ))) (names : List (String × String))
    (q : List ℚ) (thr : ℚ) (sdist : ℚ → ℚ) : RecogResult :=
  match bestOf q (allEncodings reg) with
  | none => { person_id := none, name := "Unknown", confidence := 0 }
  | some (b, bd) =>
    let confidence := max 0 (1 - sdist bd)
    if (0 < thr ∧ bd < thr * thr) ∧ b ≠ "" then
      { person_id := some b, name := lookupName names b, confidence := confidence }
    else
      { person_id := none, name := "Unknown", confidence := confidence }

/-- Matcher state: `known_faces` and `person_names` dictionaries. -/
structure MatcherState where
  known_faces : List (String × List (List ℚ))
  person_names : List (String × String)
  deriving DecidableEq

/-- Fresh engine: both dictionaries empty. -/
def emptyMatcher : MatcherState := { known_faces := [], person_names := [] }

/-- `self.known_faces[person_id].append(face_encoding)` (creating the key at
the end of the dict when absent, as Python does). -/
def addEncoding : List (String × List (List ℚ)) → String → List ℚ →
    List (String × List (List ℚ))
  | [], p, v => [(p, [v])]
  | pe :: rest, p, v =>
    if pe.1 = p then (pe.1, pe.2 ++ [v]) :: rest else pe :: addEncoding rest p v

/-- `self.person_names[person_id] = name` (insertion-order preserving). -/
def setName : List (String × String) → String → String → List (String × String)
  | [], p, n => [(p, n)]
  | pe :: rest, p, n =>
    if pe.1 = p then (pe.1, n) :: rest else pe :: setName rest p n

/-- `register_face`: append the encoding and record the display name. -/
def register_face (st : MatcherState) (p nm : String) (v : List ℚ) : MatcherState :=
  { known_faces := addEncoding st.known_faces p v,
    person_names := setName st.person_names p nm }

example : recognize_face [] [] [1] (7/10) (fun _ => 0) =
    { person_id := none, name := "Unknown", confidence := 0 } := by
  norm_num [recognize_face, bestOf, bestLoop, allEncodings]

example : recognize_face [("alice", [[0, 0]])] [("alice", "Alice")] [0, 0] (7/10)
    (fun _ => 0) =
    { person_id := some "alice", name := "Alice", confidence := 1 } := by
  norm_num [recognize_face, bestOf, bestLoop, allEncodings, sqDist, sumSq, lookupName]
  decide

example : recognize_face [("", [[0]])] [("", "Ghost")] [0] (7/10) (fun _ => 0) =
    { person_id := none, name := "Unknown", confidence := 1 } := by
  norm_num [recognize_face, bestOf, bestLoop, allEncodings, sqDist, sumSq]

/-! ### Facial recognition: feature extraction
Embeds `_extract_face_features` (lines 155–197).  The OpenCV stages
`cv2.resize` / `cv2.cvtColor` / `cv2.equalizeHist` are value-level pixel
transformations: for a non-empty crop they yield a non-empty single-channel
8-bit image, which the embedding takes as the input `img : List ℕ` (pixel
intensities, each `< 256`; the source guarantees 64×64 of them).  The Sobel /
`arctan2` stage yields one `(direction, magnitude)` pair per pixel; the
embedding takes that list as input `grads`, with directions measured in units
of π (so `arctan2`'s range `[-π, π]` becomes `[-1, 1]`) and magnitudes
`√(sobelx² + sobely²) ≥ 0`. -/

/-- One bin of `np.histogram(direction, bins=np.linspace(-np.pi, np.pi, 9))`:
bins `0..6` are half-open `[edge_i, edge_{i+1})`, the last bin is closed;
values outside `[-π, π]` fall in no bin.  Directions are in units of π, so
`edge_i = -1 + i/4`. -/
def inGradBin (i : ℕ) (d : ℚ) : Prop :=
  if i < 7 then -1 + i / 4 ≤ d ∧ d < -1 + (i + 1) / 4
  else 3 / 4 ≤ d ∧ d ≤ 1

instance (i : ℕ) (d : ℚ) : Decidable (inGradBin i d) := by
  unfold inGradBin; infer_instance

/-- `hist_grad`: magnitude-weighted 8-bin orientation histogram. -/
def histGrad (grads : List (ℚ × ℚ)) : List ℚ :=
  (List.range 8).map fun i => ((grads.filter fun g => decide (inGradBin i g.1)).map Prod.snd).sum

/-- `cv2.calcHist([gray], [0], None, [64], [0, 256])`: 64-bin intensity
histogram; pixel `p` (an 8-bit value) lands in bin `p / 4`. -/
def histGray (img : List ℕ) : List ℕ :=
  (List.range 64).map fun i => (img.filter fun p => p / 4 = i).length

/-- `np.concatenate([hist_grad, hist_gray])`. -/
def combinedFeatures (img : List ℕ) (grads : List (ℚ × ℚ)) : List ℚ :=
  histGrad grads ++ (histGray img).map (fun n : ℕ => (n : ℚ))

/-- Lines 186–190: truncate to 128 when longer, else zero-pad to 128. -/
def fit128 (v : List ℚ) : List ℚ :=
  if 128 < v.length then v.take 128
  else v ++ List.replicate (128 - v.length) 0

/-- Lines 192–195: `norm = np.linalg.norm(v); if norm > 0: v = v / norm`.
`norm > 0` is equivalent to `sumSq v > 0`; `s` supplies the root value
`np.linalg.norm(v)` (side conditions `0 ≤ s`, `s * s = sumSq v` are imposed
by the theorems).  When the norm is zero the vector is returned unchanged —
no division happens and no `None` is produced. -/
def l2normalize (v : List ℚ) (s : ℚ) : List ℚ :=
  if 0 < sumSq v then v.map fun x => x / s else v

/-- Lines 183–197 starting from the concatenated feature vector: pad or
truncate to 128 entries, normalize, and return the vector (this tail of the
function always returns a vector, never `None`). -/
def finalize_features (combined : List ℚ) (s : ℚ) : Option (List ℚ) :=
  some (l2normalize (fit128 combined) s)

/-- `_extract_face_features`: `None` for a degenerate (empty) crop, else the
histogram pipeline above. -/
def extract_face_features (img : List ℕ) (grads : List (ℚ × ℚ)) (s : ℚ) :
    Option (List ℚ) :=
  if img.isEmpty then none
  else finalize_features (combinedFeatures img grads) s

example : histGray [0] = 1 :: List.replicate 63 0 := by decide
example : histGrad [(0, 0)] = List.replicate 8 0 := by
  norm_num [histGrad, inGradBin, List.range_succ]
  decide
example : (combinedFeatures [0] [(0, 0)]).length = 72 := by decide
example : extract_face_features [] [] 1 = none := by decide

/-! ### Threat detection
Embeds `ThreatDetector` from `src/api/threat_detection.py`: the
`failed_attempts` / `access_log` histories, `log_access_attempt`, and the
`check_failed_access_attempts` rule.  Timestamps are rationals, in minutes
(so the default window `timedelta(minutes=10)` is the rational `10`);
`now` is the evaluation time `datetime.now()`. -/

/-- `ThreatLevel` enum. -/
inductive ThreatLevel where
  | LOW
  | MEDIUM
  | HIGH
  | CRITICAL
  deriving DecidableEq

/-- The alert dictionary built by `check_failed_access_attempts`
(timestamp and message string omitted; `failed_count` kept). -/
structure FailedAlert where
  threat_type : String
  severity : ThreatLevel
  person_id : String
  failed_count : ℕ
  deriving DecidableEq

/-- The `recent_failures` list comprehension: attempts strictly inside the
trailing window (`attempt[0] > now - window`) belonging to `person_id`. -/
def recentFailures (failed_attempts : List (ℚ × String)) (pid : String)
    (now window : ℚ) : List (ℚ × String) :=
  failed_attempts.filter fun a => decide (now - window < a.1) && (a.2 == pid)

/-- `check_failed_access_attempts`: fires (severity HIGH) exactly when the
windowed failure count reaches `threshold` (`>=` in the source). -/
def check_failed_access_attempts (failed_attempts : List (ℚ × String)) (pid : String)
    (now window : ℚ) (threshold : ℕ) : Option FailedAlert :=
  let recent := recentFailures failed_attempts pid now window
  if threshold ≤ recent.length then
    some { threat_type := "REPEATED_FAILED_ACCESS", severity := ThreatLevel.HIGH,
           person_id := pid, failed_count := recent.length }
  else none

/-- Mutable history of `ThreatDetector`: `failed_attempts` as
`(timestamp, person_id)` pairs and `access_log` as
`(timestamp, person_id, status)` triples. -/
structure DetectorState where
  failed_attempts : List (ℚ × String)
  access_log : List (ℚ × String × String)
  deriving DecidableEq

/-- `__init__`: both histories start empty. -/
def initDetector : DetectorState := { failed_attempts := [], access_log := [] }

/-- `log_access_attempt`: append `(now, person_id, status)` to `access_log`
and, on failure, `(now, person_id)` to `failed_attempts`.  Nothing is ever
removed from either list. -/
def log_access_attempt (st : DetectorState) (now : ℚ) (pid : String)
    (success : Bool) : DetectorState :=
  { access_log := st.access_log ++ [(now, pid, if success then "success" else "failed")],
    failed_attempts :=
      if success then st.failed_attempts else st.failed_attempts ++ [(now, pid)] }

/-- A whole run of `log_access_attempt` calls, in order. -/
def logMany (st : DetectorState) : List (ℚ × String × Bool) → DetectorState
  | [] => st
  | e :: rest => logMany (log_access_attempt st e.1 e.2.1 e.2.2) rest

example :
    check_failed_access_attempts [(0, "unknown_001"), (1, "unknown_001"), (2, "unknown_001")]
      "unknown_001" 2 10 3 =
    some { threat_type := "REPEATED_FAILED_ACCESS", severity := ThreatLevel.HIGH,
           person_id := "unknown_001", failed_count := 3 } := by
  norm_num [check_failed_access_attempts, recentFailures]

example :
    check_failed_access_attempts [(0, "unknown_001"), (1, "unknown_001")]
      "unknown_001" 2 10 3 = none := by
  norm_num [check_failed_access_attempts, recentFailures]

/-! ### Anomaly detection
Embeds `AnomalyDetector` from `src/doortest/models/anomaly_detection.py`.
Event timestamps are rationals, in hours since a Monday-midnight epoch, so
`timestamp.hour = ⌊t⌋ mod 24`, `timestamp.weekday() = ⌊t / 24⌋ mod 7` and
`(t2 - t1).total_seconds() / 3600 = t2 - t1`. -/

/-- An access event dictionary as read by `extract_features`:
ISO timestamp (modelled in hours), `type` string, `confidence`. -/
structure AccessEvent where
  timestamp : ℚ
  type : String
  confidence : ℚ
  deriving DecidableEq, Inhabited

/-- `timestamp.hour`. -/
def eventHour (e : AccessEvent) : ℤ := ⌊e.timestamp⌋ % 24

/-- `timestamp.weekday()` (Monday = 0). -/
def eventDow (e : AccessEvent) : ℤ := ⌊e.timestamp / 24⌋ % 7

/-- One `feature_vector = [hour, day_of_week, access_type, confidence,
time_diff]`, where `time_diff` is the elapsed hours since the previous event
of the sequence being featurized (`0.0` when there is none). -/
def featureRow (prev : Option AccessEvent) (e : AccessEvent) : List ℚ :=
  [(eventHour e : ℚ), (eventDow e : ℚ),
   if e.type = "entry" then 1 else 0,
   e.confidence,
   match prev with
   | none => 0
   | some p => e.timestamp - p.timestamp]

/-- The `for i, access in enumerate(access_sequence)` loop, carrying the
previous element of the sequence. -/
def extractFrom (prev : Option AccessEvent) : List AccessEvent → List (List ℚ)
  | [] => []
  | e :: rest => featureRow prev e :: extractFrom (some e) rest

/-- `extract_features`: the feature matrix of a sequence (first event gets
`time_diff = 0`). -/
def extract_features (seq : List AccessEvent) : List (List ℚ) :=
  extractFrom none seq

/-- The trained model's callable surface: `model.predict(features)[0]`
(`-1` anomalous / `1` normal) and `model.score_samples(features)[0]`. -/
structure AnomalyModel where
  predictFn : List (List ℚ) → ℤ
  scoreFn : List (List ℚ) → ℚ

/-- Detector state: the `is_trained` flag and the wrapped model. -/
structure AnomalyDetector where
  is_trained : Bool
  model : Option AnomalyModel

/-- `__init__`: untrained, no model. -/
def initAnomalyDetector : AnomalyDetector := { is_trained := false, model := none }

/-- `train_isolation_forest` on a successful `fit`: installs the model and
flips `is_trained`. -/
def train_isolation_forest (_det : AnomalyDetector) (m : AnomalyModel) :
    AnomalyDetector × Bool :=
  ({ is_trained := true, model := some m }, true)

/-- `train_lstm_autoencoder`: unimplemented in the source — returns `False`
and leaves the detector untouched. -/
def train_lstm_autoencoder (det : AnomalyDetector) : AnomalyDetector × Bool :=
  (det, false)

/-- The result dictionary of `predict_anomaly` (timestamp omitted; the
`reason` / `error` string is an `Option`). -/
structure AnomalyVerdict where
  is_anomaly : Bool
  anomaly_score : ℚ
  confidence : ℚ
  reason : Option String
  deriving DecidableEq

/-- `predict_anomaly`: untrained ⇒ the neutral verdict with reason
`"Model not trained"`; trained ⇒ features of the singleton sequence
`[access_event]` are scored by the model (`sigmoid` supplies the value of
the transcendental normalization `1 / (1 + exp score)`; a missing model
raises and lands in the `except` branch's error dictionary). -/
def predict_anomaly (det : AnomalyDetector) (sigmoid : ℚ → ℚ) (ev : AccessEvent) :
    AnomalyVerdict :=
  if det.is_trained = false then
    { is_anomaly := false, anomaly_score := 0, confidence := 0,
      reason := some "Model not trained" }
  else
    match det.model with
    | none =>
      { is_anomaly := false, anomaly_score := 0, confidence := 0,
        reason := some "error" }
    | some m =>
      let features := extract_features [ev]
      { is_anomaly := m.predictFn features = -1,
        anomaly_score := sigmoid (m.scoreFn features),
        confidence := |m.scoreFn features|,
        reason := none }

/-- The time-delta entry (index 4) of row `i` of a feature matrix. -/
def timeDeltaOf (rows : List (List ℚ)) (i : ℕ) : ℚ := (rows.getD i []).getD 4 0

example :
    predict_anomaly initAnomalyDetector (fun x => x) { timestamp := 12, type := "entry", confidence := 1 } =
    { is_anomaly := false, anomaly_score := 0, confidence := 0,
      reason := some "Model not trained" } := by
  norm_num [predict_anomaly, initAnomalyDetector]

example :
    timeDeltaOf (extract_features [{ timestamp := 12, type := "entry", confidence := 1 }]) 0 = 0 := by
  norm_num [timeDeltaOf, extract_features, extractFrom, featureRow]

example :
    timeDeltaOf (extract_features
      [{ timestamp := 10, type := "entry", confidence := 1 },
       { timestamp := 12, type := "entry", confidence := 1 }]) 1 = 2 := by
  norm_num [timeDeltaOf, extract_features, extractFrom, featureRow]

/-! ### General lemmas about `sumSq` -/

lemma sumSq_nil : sumSq [] = 0 := rfl

lemma sumSq_cons (a : ℚ) (v : List ℚ) : sumSq (a :: v) = a * a + sumSq v := by
  simp [sumSq]

lemma sumSq_append (a b : List ℚ) : sumSq (a ++ b) = sumSq a + sumSq b := by
  simp [sumSq]

lemma sumSq_nonneg (v : List ℚ) : 0 ≤ sumSq v := by
  induction v with
  | nil => simp [sumSq]
  | cons a v ih => rw [sumSq_cons]; exact add_nonneg (mul_self_nonneg a) ih

lemma sq_le_sumSq_of_mem {x : ℚ} {v : List ℚ} (h : x ∈ v) : x * x ≤ sumSq v := by
  induction v with
  | nil => cases h
  | cons a v ih =>
    rw [sumSq_cons]
    rcases List.mem_cons.mp h with rfl | h'
    · exact le_add_of_nonneg_right (sumSq_nonneg v)
    · exact (ih h').trans (le_add_of_nonneg_left (mul_self_nonneg a))

lemma sumSq_pos_of_mem {x : ℚ} {v : List ℚ} (h : x ∈ v) (hx : x ≠ 0) :
    0 < sumSq v :=
  lt_of_lt_of_le (mul_self_pos.mpr hx) (sq_le_sumSq_of_mem h)

lemma sumSq_map_div (v : List ℚ) (s : ℚ) :
    sumSq (v.map fun x => x / s) = sumSq v / (s * s) := by
  induction v with
  | nil => simp [sumSq]
  | cons a v ih =>
    rw [List.map_cons, sumSq_cons, sumSq_cons, ih, div_mul_div_comm, div_add_div_same]

lemma sumSq_replicate_zero (n : ℕ) : sumSq (List.replicate n 0) = 0 := by
  induction n with
  | zero => rfl
  | succ n ih => rw [List.replicate_succ, sumSq_cons, ih]; ring

lemma sqDist_self (v : List ℚ) : sqDist v v = 0 := by
  induction v with
  | nil => rfl
  | cons a v ih =>
    rw [sqDist, List.zipWith_cons_cons, sumSq_cons]
    rw [sqDist] at ih
    rw [ih]; ring

/-! ### C2: empty registry -/

/-- C2 (confirmed): against a registry holding no enrolled encodings,
`recognize_face` returns a null `person_id`, name `"Unknown"` and confidence
exactly `0`, for every input descriptor (and indeed every threshold and
square-root value): the scan accumulator stays `(None, inf)`, so
`confidence = max(0, 1 - inf) = 0` and no match is declared. -/
theorem recognize_empty_registry (reg : List (String × List (List ℚ)))
    (names : List (String × String)) (q : List ℚ) (thr : ℚ) (sdist : ℚ → ℚ)
    (h : allEncodings reg = []) :
    recognize_face reg names q thr sdist =
      { person_id := none, name := "Unknown", confidence := 0 } := by
  unfold recognize_face bestOf
  rw [h]
  rfl

/-- C2 witness: the empty registry at a concrete descriptor. -/
theorem recognize_empty_registry_witness :
    recognize_face [] [("alice", "Alice")] [3, 4] (7/10) (fun _ => 0) =
      { person_id := none, name := "Unknown", confidence := 0 } :=
  recognize_empty_registry [] [("alice", "Alice")] [3, 4] (7/10) (fun _ => 0) rfl

/-! ### C5: repeated failed access rule -/

/-- C5 (confirmed): `check_failed_access_attempts` returns an alert iff the
number of the person's failed attempts inside the trailing window is `≥` the
threshold; the alert carries severity HIGH (and the window count); at the
boundary, count `=` threshold triggers and count `=` threshold − 1 does not. -/
theorem check_failed_iff_threshold (fa : List (ℚ × String)) (pid : String)
    (now window : ℚ) (threshold : ℕ) :
    (check_failed_access_attempts fa pid now window threshold ≠ none ↔
      threshold ≤ (recentFailures fa pid now window).length) ∧
    (∀ a, check_failed_access_attempts fa pid now window threshold = some a →
      a.severity = ThreatLevel.HIGH ∧
      a.failed_count = (recentFailures fa pid now window).length ∧
      a.person_id = pid ∧ a.threat_type = "REPEATED_FAILED_ACCESS") ∧
    ((recentFailures fa pid now window).length = threshold →
      check_failed_access_attempts fa pid now window threshold ≠ none) ∧
    (1 ≤ threshold → (recentFailures fa pid now window).length = threshold - 1 →
      check_failed_access_attempts fa pid now window threshold = none) := by
  by_cases h : threshold ≤ (recentFailures fa pid now window).length <;>
    refine ⟨?_, ?_, ?_, ?_⟩ <;> simp_all [check_failed_access_attempts] <;> omega

/-- C5 witness: 3 failures within 2 minutes (threshold 3, window 10) trigger;
a count of 2 does not. -/
theorem check_failed_iff_threshold_witness :
    check_failed_access_attempts
      [(0, "unknown_001"), (1, "unknown_001"), (2, "unknown_001")]
      "unknown_001" 2 10 3 ≠ none ∧
    check_failed_access_attempts [(0, "unknown_001"), (1, "unknown_001")]
      "unknown_001" 2 10 3 = none :=
  ⟨(check_failed_iff_threshold
      [(0, "unknown_001"), (1, "unknown_001"), (2, "unknown_001")]
      "unknown_001" 2 10 3).2.2.1 (by norm_num [recentFailures]),
   (check_failed_iff_threshold [(0, "unknown_001"), (1, "unknown_001")]
      "unknown_001" 2 10 3).2.2.2 (by norm_num) (by norm_num [recentFailures])⟩

/-! ### C6: history growth -/

lemma logMany_lengths (evs : List (ℚ × String × Bool)) : ∀ st : DetectorState,
    (logMany st evs).access_log.length = st.access_log.length + evs.length ∧
    (logMany st evs).failed_attempts.length =
      st.failed_attempts.length + (evs.filter fun e => !e.2.2).length := by
  induction evs with
  | nil => intro st; simp [logMany]
  | cons e rest ih =>
    intro st
    obtain ⟨h1, h2⟩ := ih (log_access_attempt st e.1 e.2.1 e.2.2)
    constructor
    · rw [logMany, h1, log_access_attempt]
      simp; omega
    · rw [logMany, h2, log_access_attempt]
      cases hs : e.2.2 <;> simp [hs] <;> omega

/-- C6 (code bug): the threat engine's histories are never pruned — both
lists retain one entry per logged attempt forever, whatever the timestamps,
so memory grows without bound with the number of attempts.  (The rules
filter on window boundaries when *reading*, but `log_access_attempt` only
appends and no method ever evicts.)  The spec itself flags the missing
eviction in §9 as a defect, so the claim states the intent and the code
violates it. -/
theorem history_never_pruned (evs : List (ℚ × String × Bool)) :
    (logMany initDetector evs).access_log.length = evs.length ∧
    (logMany initDetector evs).failed_attempts.length =
      (evs.filter fun e => !e.2.2).length := by
  simpa [initDetector] using logMany_lengths evs initDetector

/-! ### C7: prediction before training -/

/-- C7 (confirmed): with the `is_trained` flag still down — as it is for the
freshly constructed detector, before any successful `train` call —
`predict_anomaly` returns the neutral verdict: `is_anomaly = false`,
score `0`, confidence `0`, reason `"Model not trained"`, for every input
event and every normalization; the model is never consulted. -/
theorem predict_untrained (det : AnomalyDetector) (sigmoid : ℚ → ℚ)
    (ev : AccessEvent) (h : det.is_trained = false) :
    predict_anomaly det sigmoid ev =
      { is_anomaly := false, anomaly_score := 0, confidence := 0,
        reason := some "Model not trained" } ∧
    initAnomalyDetector.is_trained = false ∧
    ((train_lstm_autoencoder det).1.is_trained = det.is_trained ∧
      (train_lstm_autoencoder det).2 = false) := by
  refine ⟨?_, rfl, rfl, rfl⟩
  rw [predict_anomaly, if_pos h]

/-- C7 witness: the fresh detector on a concrete event. -/
theorem predict_untrained_witness :
    predict_anomaly initAnomalyDetector (fun x => x)
      { timestamp := 12, type := "entry", confidence := 1 } =
      { is_anomaly := false, anomaly_score := 0, confidence := 0,
        reason := some "Model not trained" } :=
  (predict_untrained initAnomalyDetector (fun x => x)
    { timestamp := 12, type := "entry", confidence := 1 } rfl).1

/-! ### The nearest-neighbour scan is a global minimum -/

lemma bestLoop_total : ∀ (pairs : List (String × List ℚ)) (q : List ℚ)
    (b : String) (bd : ℚ), ∃ p d, bestLoop q (some (b, bd)) pairs = some (p, d)
  | [], _, b, bd => ⟨b, bd, rfl⟩
  | pe :: rest, q, b, bd => by
    by_cases hlt : sqDist q pe.2 < bd
    · simpa [bestLoop, hlt] using bestLoop_total rest q pe.1 (sqDist q pe.2)
    · simpa [bestLoop, hlt] using bestLoop_total rest q b bd

lemma bestLoop_le : ∀ (pairs : List (String × List ℚ)) (q : List ℚ)
    (b : String) (bd : ℚ) (p : String) (d : ℚ),
    bestLoop q (some (b, bd)) pairs = some (p, d) → d ≤ bd
  | [], q, b, bd, p, d, h => by
    rw [bestLoop] at h
    cases h
    exact le_refl _
  | pe :: rest, q, b, bd, p, d, h => by
    by_cases hlt : sqDist q pe.2 < bd
    · rw [bestLoop, if_pos hlt] at h
      exact (bestLoop_le rest q pe.1 (sqDist q pe.2) p d h).trans hlt.le
    · rw [bestLoop, if_neg hlt] at h
      exact bestLoop_le rest q b bd p d h

lemma bestLoop_mem : ∀ (pairs : List (String × List ℚ)) (q : List ℚ)
    (acc : Option (String × ℚ)) (p : String) (d : ℚ),
    bestLoop q acc pairs = some (p, d) →
    acc = some (p, d) ∨ ∃ pe ∈ pairs, p = pe.1 ∧ d = sqDist q pe.2
  | [], q, acc, p, d, h => Or.inl h
  | pe :: rest, q, acc, p, d, h => by
    have step : ∀ b bd, bestLoop q (some (b, bd)) rest = some (p, d) →
        (b = p ∧ bd = d) ∨ ∃ pe' ∈ rest, p = pe'.1 ∧ d = sqDist q pe'.2 := by
      intro b bd hb
      rcases bestLoop_mem rest q (some (b, bd)) p d hb with heq | hmem
      · cases heq; exact Or.inl ⟨rfl, rfl⟩
      · exact Or.inr hmem
    cases acc with
    | none =>
      rw [bestLoop] at h
      rcases step pe.1 (sqDist q pe.2) h with ⟨rfl, rfl⟩ | ⟨pe', hpe', h1, h2⟩
      · exact Or.inr ⟨pe, List.mem_cons_self pe rest, rfl, rfl⟩
      · exact Or.inr ⟨pe', List.mem_cons_of_mem pe hpe', h1, h2⟩
    | some x =>
      obtain ⟨b0, bd0⟩ := x
      rw [bestLoop] at h
      by_cases hlt : sqDist q pe.2 < bd0
      · rw [if_pos hlt] at h
        rcases step pe.1 (sqDist q pe.2) h with ⟨rfl, rfl⟩ | ⟨pe', hpe', h1, h2⟩
        · exact Or.inr ⟨pe, List.mem_cons_self pe rest, rfl, rfl⟩
        · exact Or.inr ⟨pe', List.mem_cons_of_mem pe hpe', h1, h2⟩
      · rw [if_neg hlt] at h
        rcases step b0 bd0 h with ⟨h1, h2⟩ | ⟨pe', hpe', h1, h2⟩
        · exact Or.inl (by rw [← h1, ← h2])
        · exact Or.inr ⟨pe', List.mem_cons_of_mem pe hpe', h1, h2⟩

lemma bestLoop_min : ∀ (pairs : List (String × List ℚ)) (q : List ℚ)
    (acc : Option (String × ℚ)) (p : String) (d : ℚ),
    bestLoop q acc pairs = some (p, d) →
    ∀ pe ∈ pairs, d ≤ sqDist q pe.2
  | [], _, _, _, _, _ => by intro pe hpe; cases hpe
  | pe0 :: rest, q, acc, p, d, h => by
    intro pe hpe
    rcases List.mem_cons.mp hpe with rfl | htail
    · cases acc with
      | none =>
        rw [bestLoop] at h
        exact bestLoop_le rest q pe.1 (sqDist q pe.2) p d h
      | some x =>
        obtain ⟨b0, bd0⟩ := x
        rw [bestLoop] at h
        by_cases hlt : sqDist q pe.2 < bd0
        · rw [if_pos hlt] at h
          exact bestLoop_le rest q pe.1 (sqDist q pe.2) p d h
        · rw [if_neg hlt] at h
          exact (bestLoop_le rest q b0 bd0 p d h).trans (not_lt.mp hlt)
    · cases acc with
      | none =>
        rw [bestLoop] at h
        exact bestLoop_min rest q (some (pe0.1, sqDist q pe0.2)) p d h pe htail
      | some x =>
        obtain ⟨b0, bd0⟩ := x
        rw [bestLoop] at h
        by_cases hlt : sqDist q pe0.2 < bd0
        · rw [if_pos hlt] at h
          exact bestLoop_min rest q (some (pe0.1, sqDist q pe0.2)) p d h pe htail
        · rw [if_neg hlt] at h
          exact bestLoop_min rest q (some (b0, bd0)) p d h pe htail

lemma bestOf_spec (q : List ℚ) (pairs : List (String × List ℚ))
    (hne : pairs ≠ []) :
    ∃ b d, bestOf q pairs = some (b, d) ∧
      (∃ pe ∈ pairs, b = pe.1 ∧ d = sqDist q pe.2) ∧
      ∀ pe ∈ pairs, d ≤ sqDist q pe.2 := by
  obtain ⟨pe0, rest, rfl⟩ := List.exists_cons_of_ne_nil hne
  obtain ⟨p, d, hp⟩ := bestLoop_total rest q pe0.1 (sqDist q pe0.2)
  have hcons : bestOf q (pe0 :: rest) = some (p, d) := by
    rw [bestOf, bestLoop]; exact hp
  refine ⟨p, d, hcons, ?_, bestLoop_min (pe0 :: rest) q none p d hcons⟩
  rcases bestLoop_mem (pe0 :: rest) q none p d hcons with heq | hmem
  · cases heq
  · exact hmem

/-! ### C1: match declaration against a non-empty registry -/

/-- C1 (amended): against a registry with at least one enrolled encoding,
`recognize_face` finds the single global minimum (squared) distance `d` over
every enrolled vector of every person (`d` is attained and is a lower bound
for all of them), and declares a match — non-null `person_id`, registered
display name — iff `d < 0.7²` **and the winning person_id is a non-empty
string** (Python truthiness of `best_match` in
`if is_match and best_match:`); otherwise it returns a null identity with
name `"Unknown"`.  Either way the result carries the confidence
`max(0, 1 - √d)`.  The original claim, match iff distance < 0.7 alone, fails
when the winning person_id is `""` (see the counterexample). -/
theorem recognize_match_characterization (reg : List (String × List (List ℚ)))
    (names : List (String × String)) (q : List ℚ) (sdist : ℚ → ℚ)
    (h : allEncodings reg ≠ []) :
    ∃ b d, bestOf q (allEncodings reg) = some (b, d) ∧
      (∃ pe ∈ allEncodings reg, b = pe.1 ∧ d = sqDist q pe.2) ∧
      (∀ pe ∈ allEncodings reg, d ≤ sqDist q pe.2) ∧
      recognize_face reg names q (7/10) sdist =
        (if d < 49/100 ∧ b ≠ "" then
          { person_id := some b, name := lookupName names b,
            confidence := max 0 (1 - sdist d) }
        else
          { person_id := none, name := "Unknown",
            confidence := max 0 (1 - sdist d) }) := by
  obtain ⟨b, d, hbest, hmem, hmin⟩ := bestOf_spec q (allEncodings reg) h
  refine ⟨b, d, hbest, hmem, hmin, ?_⟩
  unfold recognize_face
  rw [hbest]
  have hiff : ((0 < (7:ℚ)/10 ∧ d < 7/10 * (7/10)) ∧ b ≠ "") ↔
      (d < 49/100 ∧ b ≠ "") := by
    constructor
    · rintro ⟨⟨-, hd⟩, hb⟩
      refine ⟨by linarith, hb⟩
    · rintro ⟨hd, hb⟩
      refine ⟨⟨by norm_num, by linarith⟩, hb⟩
  exact if_congr hiff rfl rfl

/-- C1 counterexample: the claim as stated — match iff winning distance
strictly below 0.7 — fails at the non-empty registry that enrols the
person_id `""`: the query equals the enrolled vector, the winning (squared)
distance `0` is below the threshold, yet `person_id` is null because Python's
`if is_match and best_match:` treats the empty string as falsy. -/
theorem recognize_match_cex :
    allEncodings [("", [[(0:ℚ)]])] ≠ [] ∧
    sqDist [0] [0] < 49/100 ∧
    (recognize_face [("", [[(0:ℚ)]])] [("", "Resident")] [0] (7/10)
      (fun _ => 0)).person_id = none := by
  refine ⟨by decide, by norm_num [sqDist, sumSq], ?_⟩
  norm_num [recognize_face, bestOf, bestLoop, allEncodings, sqDist, sumSq]

/-- C1 witness: the amended characterization at a one-person registry. -/
theorem recognize_match_characterization_witness :
    ∃ b d, bestOf [0, 0] (allEncodings [("alice", [[(0:ℚ), 0]])]) = some (b, d) ∧
      (∃ pe ∈ allEncodings [("alice", [[(0:ℚ), 0]])], b = pe.1 ∧ d = sqDist [0, 0] pe.2) ∧
      (∀ pe ∈ allEncodings [("alice", [[(0:ℚ), 0]])], d ≤ sqDist [0, 0] pe.2) ∧
      recognize_face [("alice", [[(0:ℚ), 0]])] [("alice", "Alice")] [0, 0] (7/10)
        (fun _ => 0) =
        (if d < 49/100 ∧ b ≠ "" then
          { person_id := some b, name := lookupName [("alice", "Alice")] b,
            confidence := max 0 (1 - (fun _ => (0:ℚ)) d) }
        else
          { person_id := none, name := "Unknown",
            confidence := max 0 (1 - (fun _ => (0:ℚ)) d) }) :=
  recognize_match_characterization [("alice", [[0, 0]])] [("alice", "Alice")]
    [0, 0] (fun _ => 0) (by decide)

/-! ### C9: register then match -/

/-- C9 (amended): starting from a fresh engine, `register_face p nm v` then
`recognize_face` on the same descriptor `v` yields winning (squared)
distance `0` and a positive match for `p`, with confidence at the
transform's maximum `max(0, 1 - 0) = 1` — provided the threshold is
**strictly positive** (the source compares `best_distance < threshold`
strictly, so threshold `0` never matches, refuting "any threshold ≥ 0") and
`p` is a non-empty string (Python truthiness).  `sdist 0 = 0` says the
square root supplied for the winning squared distance `0` is `0`. -/
theorem register_then_match (p nm : String) (v : List ℚ) (thr : ℚ)
    (sdist : ℚ → ℚ) (hp : p ≠ "") (ht : 0 < thr) (hs : sdist 0 = 0) :
    bestOf v (allEncodings (register_face emptyMatcher p nm v).known_faces) =
      some (p, 0) ∧
    recognize_face (register_face emptyMatcher p nm v).known_faces
      (register_face emptyMatcher p nm v).person_names v thr sdist =
      { person_id := some p, name := nm, confidence := 1 } := by
  have hreg : (register_face emptyMatcher p nm v).known_faces = [(p, [v])] := rfl
  have hnames : (register_face emptyMatcher p nm v).person_names = [(p, nm)] := rfl
  have henc : allEncodings [(p, [v])] = [(p, v)] := by simp [allEncodings]
  have hbest : bestOf v [(p, v)] = some (p, 0) := by
    simp [bestOf, bestLoop, sqDist_self]
  constructor
  · rw [hreg, henc]; exact hbest
  · unfold recognize_face
    rw [hreg, hnames, henc, hbest]
    show (if (0 < thr ∧ (0:ℚ) < thr * thr) ∧ p ≠ "" then
        ({ person_id := some p, name := lookupName [(p, nm)] p,
           confidence := max 0 (1 - sdist 0) } : RecogResult)
      else
        ({ person_id := none, name := "Unknown",
           confidence := max 0 (1 - sdist 0) } : RecogResult)) =
      ({ person_id := some p, name := nm, confidence := 1 } : RecogResult)
    have hlook : lookupName [(p, nm)] p = nm := by
      simp [lookupName, List.lookup]
    rw [if_pos ⟨⟨ht, mul_pos ht ht⟩, hp⟩, hlook, hs]
    norm_num

/-- C9 counterexample: with threshold `0` (which satisfies "any threshold
≥ 0" in the claim) registering and re-presenting the same descriptor does
NOT yield a positive match, because the source's comparison
`best_distance < threshold` is strict and the winning distance is `0`. -/
theorem register_then_match_cex :
    (0:ℚ) ≤ 0 ∧
    (recognize_face (register_face emptyMatcher "alice" "Alice" [1]).known_faces
      (register_face emptyMatcher "alice" "Alice" [1]).person_names [1] 0
      (fun _ => 0)).person_id = none := by
  refine ⟨le_refl 0, ?_⟩
  norm_num [register_face, emptyMatcher, addEncoding, setName, recognize_face,
    bestOf, bestLoop, allEncodings, sqDist, sumSq, lookupName]

/-- C9 witness: a concrete registration matched at the default threshold. -/
theorem register_then_match_witness :
    bestOf [1, 2]
      (allEncodings (register_face emptyMatcher "alice" "Alice" [1, 2]).known_faces) =
      some ("alice", 0) ∧
    recognize_face (register_face emptyMatcher "alice" "Alice" [1, 2]).known_faces
      (register_face emptyMatcher "alice" "Alice" [1, 2]).person_names [1, 2]
      (7/10) (fun _ => 0) =
      { person_id := some "alice", name := "Alice", confidence := 1 } :=
  register_then_match "alice" "Alice" [1, 2] (7/10) (fun _ => 0) (by decide)
    (by norm_num) rfl

/-! ### C8: the engineered time-delta feature -/

lemma extractFrom_timeDelta : ∀ (seq : List AccessEvent) (prev : Option AccessEvent)
    (i : ℕ), i + 1 < seq.length →
    timeDeltaOf (extractFrom prev seq) (i + 1) =
      (seq.getD (i + 1) default).timestamp - (seq.getD i default).timestamp
  | [], _, i, h => by simp at h
  | [e], _, i, h => by simp at h
  | e :: e2 :: rest, prev, 0, _ => by
    simp [extractFrom, timeDeltaOf, featureRow]
  | e :: e2 :: rest, prev, (i + 1), h => by
    have h' : i + 1 < (e2 :: rest).length := by
      simpa using Nat.lt_of_succ_lt_succ h
    simpa [extractFrom, timeDeltaOf] using
      extractFrom_timeDelta (e2 :: rest) (some e) i h'

/-- C8 (amended): the time-delta feature produced by `extract_features` is
the elapsed hours since the *immediately preceding event of the sequence
being featurized* (whoever it belongs to), and `0` for the sequence's first
event.  In particular, for every event scored by `predict_anomaly` the
time delta is `0`, because `predict_anomaly` featurizes the singleton
sequence `[access_event]` — never "the elapsed hours since that person's
chronologically preceding event" as claimed (see the counterexample). -/
theorem predict_timeDelta (ev : AccessEvent) (seq : List AccessEvent) (i : ℕ)
    (h : i + 1 < seq.length) :
    timeDeltaOf (extract_features [ev]) 0 = 0 ∧
    timeDeltaOf (extract_features seq) 0 = 0 ∧
    timeDeltaOf (extract_features seq) (i + 1) =
      (seq.getD (i + 1) default).timestamp - (seq.getD i default).timestamp := by
  refine ⟨by simp [extract_features, extractFrom, featureRow, timeDeltaOf], ?_,
    extractFrom_timeDelta seq none i h⟩
  cases seq with
  | nil => simp [extract_features, extractFrom, timeDeltaOf]
  | cons e rest => simp [extract_features, extractFrom, featureRow, timeDeltaOf]

/-- C8 counterexample: a resident's preceding event is at hour `10` and the
scored event at hour `12`, so the claim says the engineered time delta is
`2`; but `predict_anomaly` featurizes only `[access_event]`, whose single
row has time delta `0` — a trained model whose score is exactly that feature
observes `0`, not `2`. -/
theorem predict_timeDelta_cex :
    timeDeltaOf (extract_features
      [{ timestamp := 12, type := "entry", confidence := 1 }]) 0 = 0 ∧
    (predict_anomaly
      { is_trained := true,
        model := some { predictFn := fun _ => 1,
                        scoreFn := fun rows => timeDeltaOf rows 0 } }
      (fun x => x)
      { timestamp := 12, type := "entry", confidence := 1 }).anomaly_score = 0 ∧
    ({ timestamp := 12, type := "entry", confidence := 1 } : AccessEvent).timestamp -
      ({ timestamp := 10, type := "entry", confidence := 1 } : AccessEvent).timestamp = 2 ∧
    (0 : ℚ) ≠ 2 := by
  refine ⟨by simp [extract_features, extractFrom, featureRow, timeDeltaOf], ?_,
    by norm_num, by norm_num⟩
  simp [predict_anomaly, extract_features, extractFrom, featureRow, timeDeltaOf]

/-- C8 witness: the amended statement on a concrete two-event sequence with
a two-hour gap. -/
theorem predict_timeDelta_witness :
    timeDeltaOf (extract_features
      [{ timestamp := 5, type := "exit", confidence := 1 }]) 0 = 0 ∧
    timeDeltaOf (extract_features
      [{ timestamp := 10, type := "entry", confidence := 1 },
       { timestamp := 12, type := "entry", confidence := 1 }]) 0 = 0 ∧
    timeDeltaOf (extract_features
      [{ timestamp := 10, type := "entry", confidence := 1 },
       { timestamp := 12, type := "entry", confidence := 1 }]) (0 + 1) =
      (([{ timestamp := 10, type := "entry", confidence := 1 },
          { timestamp := 12, type := "entry", confidence := 1 }] :
            List AccessEvent).getD (0 + 1) default).timestamp -
      (([{ timestamp := 10, type := "entry", confidence := 1 },
          { timestamp := 12, type := "entry", confidence := 1 }] :
            List AccessEvent).getD 0 default).timestamp :=
  predict_timeDelta { timestamp := 5, type := "exit", confidence := 1 }
    [{ timestamp := 10, type := "entry", confidence := 1 },
     { timestamp := 12, type := "entry", confidence := 1 }] 0 (by decide)

/-! ### Shape lemmas for the feature pipeline -/

lemma histGrad_length (grads : List (ℚ × ℚ)) : (histGrad grads).length = 8 := by
  simp [histGrad]

lemma histGray_length (img : List ℕ) : (histGray img).length = 64 := by
  simp [histGray]

lemma combinedFeatures_length (img : List ℕ) (grads : List (ℚ × ℚ)) :
    (combinedFeatures img grads).length = 72 := by
  rw [combinedFeatures, List.length_append, List.length_map, histGrad_length,
    histGray_length]

lemma fit128_eq_pad (v : List ℚ) (h : v.length ≤ 128) :
    fit128 v = v ++ List.replicate (128 - v.length) 0 := by
  rw [fit128, if_neg (by omega)]

lemma fit128_length (v : List ℚ) (h : v.length ≤ 128) :
    (fit128 v).length = 128 := by
  rw [fit128_eq_pad v h]
  simp
  omega

lemma fit128_replicate72 : fit128 (List.replicate 72 (0:ℚ)) = List.replicate 128 0 := by
  rw [fit128_eq_pad _ (by simp), List.length_replicate, ← List.replicate_add]

/-- A non-empty 8-bit image always has a strictly positive intensity bin:
its head pixel is counted by bin `p / 4`. -/
lemma histGray_mem_pos (img : List ℕ) (himg : img ≠ [])
    (hpx : ∀ p ∈ img, p < 256) :
    ∃ n : ℕ, n ∈ histGray img ∧ 0 < n := by
  obtain ⟨p, rest, rfl⟩ := List.exists_cons_of_ne_nil himg
  refine ⟨((p :: rest).filter fun x => x / 4 = p / 4).length, ?_, ?_⟩
  · have hb : p / 4 ∈ List.range 64 := by
      have := hpx p (List.mem_cons_self p rest)
      exact List.mem_range.mpr (by omega)
    rw [histGray]
    exact List.mem_map.mpr ⟨p / 4, hb, rfl⟩
  · have hp : p ∈ (p :: rest).filter fun x => x / 4 = p / 4 := by
      simp [List.mem_filter]
    exact List.length_pos.mpr (List.ne_nil_of_mem hp)

/-! ### C3: extracted descriptors are unit vectors of length 128 -/

/-- C3 (confirmed): for every non-empty 8-bit image (what the resize /
grayscale / equalize stages produce from a valid non-empty crop), with the
square-root side condition `s² = Σ vᵢ²` for the padded feature
vector, extraction succeeds with a vector of exactly 128 entries whose
squared L2 norm is exactly `1` (so its norm is within any ε of 1).  The
pre-normalization norm is strictly positive because the 64-bin intensity
histogram of a non-empty image always holds a positive pixel count, so the
division branch is always taken. -/
theorem extract_unit_norm (img : List ℕ) (grads : List (ℚ × ℚ)) (s : ℚ)
    (himg : img ≠ []) (hpx : ∀ p ∈ img, p < 256)
    (hs : s * s = sumSq (fit128 (combinedFeatures img grads))) :
    ∃ w, extract_face_features img grads s = some w ∧
      w.length = 128 ∧ sumSq w = 1 := by
  obtain ⟨n, hn, hnpos⟩ := histGray_mem_pos img himg hpx
  have hlen := combinedFeatures_length img grads
  have hmem : ((n : ℚ)) ∈ fit128 (combinedFeatures img grads) := by
    rw [fit128_eq_pad _ (by omega)]
    refine List.mem_append_left _ ?_
    rw [combinedFeatures]
    exact List.mem_append_right _ (List.mem_map_of_mem _ hn)
  have hpos : 0 < sumSq (fit128 (combinedFeatures img grads)) :=
    sumSq_pos_of_mem hmem (Nat.cast_ne_zero.mpr (by omega))
  have hsne : s ≠ 0 := by
    intro h0
    rw [h0, mul_zero] at hs
    linarith
  have hempty : img.isEmpty = false := by
    cases img with
    | nil => exact absurd rfl himg
    | cons a l => rfl
  refine ⟨(fit128 (combinedFeatures img grads)).map fun x => x / s, ?_, ?_, ?_⟩
  · rw [extract_face_features, if_neg (by simp [hempty]), finalize_features,
      l2normalize, if_pos hpos]
  · rw [List.length_map, fit128_length _ (by omega)]
  · rw [sumSq_map_div, ← hs]
    exact div_self (mul_ne_zero hsne hsne)

/-- C3 witness: the single-pixel image `[0]` with one zero-weight gradient
pixel: the feature vector is `e₉` (the count `1` in intensity bin `0`), its
norm is `1` and `s = 1`. -/
theorem extract_unit_norm_witness :
    ∃ w, extract_face_features [0] [(0, 0)] 1 = some w ∧
      w.length = 128 ∧ sumSq w = 1 := by
  apply extract_unit_norm [0] [(0, 0)] 1 (by decide) (by decide)
  have hg : histGrad [(0, 0)] = List.replicate 8 0 := by
    norm_num [histGrad, inGradBin, List.range_succ]
    decide
  have hy : histGray [0] = 1 :: List.replicate 63 0 := by decide
  have hc : combinedFeatures [0] [(0, 0)] =
      List.replicate 8 (0:ℚ) ++ ((1:ℚ) :: List.replicate 63 0) := by
    rw [combinedFeatures, hg, hy]
    simp
  rw [hc, fit128_eq_pad _ (by simp)]
  simp [sumSq_append, sumSq_cons, sumSq_nil, sumSq_replicate_zero]

/-! ### C4: zero pre-normalization norm -/

/-- C4 counterexample: on a concatenated feature vector of L2 norm zero the
extractor does NOT return "no descriptor": the `if norm > 0` guard merely
skips the division, and the function still returns the (all-zero) padded
vector as a descriptor.  The claim's "returns None" is false. -/
theorem finalize_zero_norm_cex :
    sumSq (fit128 (List.replicate 72 (0:ℚ))) = 0 ∧
    finalize_features (List.replicate 72 (0:ℚ)) 0 =
      some (List.replicate 128 0) := by
  have h0 : sumSq (fit128 (List.replicate 72 (0:ℚ))) = 0 := by
    rw [fit128_replicate72]
    exact sumSq_replicate_zero 128
  refine ⟨h0, ?_⟩
  rw [finalize_features, l2normalize, if_neg (by rw [h0]; exact lt_irrefl 0),
    fit128_replicate72]

/-- C4 (amended): if the concatenated pre-normalization feature vector has
L2 norm zero, the extractor never divides by zero — the `if norm > 0` guard
skips the division — but it returns the unnormalized (zero) padded vector as
a numeric descriptor, not `None`.  (With real 8-bit input this case is
unreachable anyway: see `extract_unit_norm`'s positivity argument.) -/
theorem finalize_zero_norm (v : List ℚ) (s : ℚ) (h : sumSq (fit128 v) = 0) :
    finalize_features v s = some (fit128 v) := by
  rw [finalize_features, l2normalize, if_neg (by rw [h]; exact lt_irrefl 0)]

/-- C4 witness: the zero 72-vector, with an arbitrary root value `5`. -/
theorem finalize_zero_norm_witness :
    finalize_features (List.replicate 72 (0:ℚ)) 5 =
      some (fit128 (List.replicate 72 (0:ℚ))) :=
  finalize_zero_norm (List.replicate 72 0) 5
    (by rw [fit128_replicate72]; exact sumSq_replicate_zero 128)

/-! ### C10: the last 56 descriptor entries are always zero -/

/-- C10 (confirmed): the concatenated histogram vector always has exactly
`8 + 64 = 72` entries, so the truncation branch (`len > 128`) is unreachable
and the descriptor is always zero-padded by `56` entries: on every
successful extraction, entries 72–127 of the 128-entry result are all `0`
(zero-padding survives the normalization since `0 / s = 0`).  Hence only the
first 72 positions can ever contribute to a matching distance. -/
theorem extract_tail_zero (img : List ℕ) (grads : List (ℚ × ℚ)) (s : ℚ)
    (himg : img ≠ []) :
    (combinedFeatures img grads).length = 72 ∧
    ∃ w, extract_face_features img grads s = some w ∧ w.length = 128 ∧
      w.drop 72 = List.replicate 56 0 := by
  have hlen := combinedFeatures_length img grads
  have hempty : img.isEmpty = false := by
    cases img with
    | nil => exact absurd rfl himg
    | cons a l => rfl
  have hpad : fit128 (combinedFeatures img grads) =
      combinedFeatures img grads ++ List.replicate 56 0 := by
    rw [fit128_eq_pad _ (by omega), hlen]
  have hdrop : (combinedFeatures img grads ++ List.replicate 56 (0:ℚ)).drop 72 =
      List.replicate 56 0 := by
    have h := List.drop_left (combinedFeatures img grads) (List.replicate 56 (0:ℚ))
    rwa [hlen] at h
  refine ⟨hlen, ?_⟩
  rw [extract_face_features, if_neg (by simp [hempty]), finalize_features,
    l2normalize, hpad]
  by_cases hpos : 0 < sumSq (combinedFeatures img grads ++ List.replicate 56 (0:ℚ))
  · rw [if_pos hpos]
    refine ⟨_, rfl, ?_, ?_⟩
    · simp [hlen]
    · rw [← List.map_drop, hdrop, List.map_replicate, zero_div]
  · rw [if_neg hpos]
    exact ⟨_, rfl, by simp [hlen], hdrop⟩

/-- C10 witness: a concrete one-pixel image with no gradient pixels. -/
theorem extract_tail_zero_witness :
    (combinedFeatures [5] []).length = 72 ∧
    ∃ w, extract_face_features [5] [] 3 = some w ∧ w.length = 128 ∧
      w.drop 72 = List.replicate 56 0 :=
  extract_tail_zero [5] [] 3 (by decide)
